import Mathlib

/-!
Shallow embedding of `.vscode/tools/setup_vscode.py`.

Python strings are modelled as `List Char`.  The two regex operations of the
script use the pattern `\"python.analysis.extraPaths\": \[.*?\]` (with
`re.DOTALL`): the two unescaped dots inside the key are regex wildcards and are
modelled as wildcard positions (`none`) in `markerPat`; the non-greedy `.*?\]`
matches up to the first `]` after the `[`.  `re.sub` (used without a count)
replaces every non-overlapping leftmost occurrence; the replacement string is
treated literally (the inputs considered contain no backslash escapes, which is
the only case where Python post-processes the replacement).  File access is
modelled by passing the content of each file as an `Option (List Char)`
(`none` = the file does not exist), and an unhandled Python exception is
modelled as an error value.
-/

namespace SetupVscode

set_option maxRecDepth 100000

/-- Literal-prefix test: does `pat` occur at the head of `s`? -/
def isPrefixL : List Char → List Char → Bool
  | [], _ => true
  | _ :: _, [] => false
  | a :: xs, b :: ys => if a = b then isPrefixL xs ys else false

/-- Index of the first `]` in a character list, if any. -/
def findClose : List Char → Option Nat
  | [] => none
  | c :: cs => if c = ']' then some 0 else (findClose cs).map (· + 1)

/-- Match a regex-literal pattern with wildcard positions (`none` matches any
character) against the head of a list. -/
def isMatchPat : List (Option Char) → List Char → Bool
  | [], _ => true
  | _ :: _, [] => false
  | p :: ps, c :: cs =>
    match p with
    | some a => if a = c then isMatchPat ps cs else false
    | none => isMatchPat ps cs

/-- The literal text of the extraPaths marker key followed by `[`, as it is
used by the plain-string `split` on line 78 of the source. -/
def markerOpen : List Char := "\"python.analysis.extraPaths\": [".toList

/-- The regex form of `\"python.analysis.extraPaths\": \[`: the two unescaped
dots of the key are wildcards. -/
def markerPat : List (Option Char) :=
  "\"python".toList.map some ++ [none] ++ "analysis".toList.map some ++ [none]
    ++ "extraPaths\": [".toList.map some

/-- One regex match attempt of `\"python.analysis.extraPaths\": \[.*?\]`
(DOTALL) at the head of `s`: the marker must match, and the match extends to
the first `]` after the `[`.  Returns the length of the match. -/
def matchExtra (s : List Char) : Option Nat :=
  if isMatchPat markerPat s then
    match findClose (s.drop markerPat.length) with
    | some i => some (markerPat.length + i + 1)
    | none => none
  else none

/-- One match attempt of a `re.escape`d (i.e. literal) pattern at the head of
`s`, as used by `overwrite_python_default_interpreter_path`. -/
def matchLit (pat : List Char) (s : List Char) : Option Nat :=
  if isPrefixL pat s then some pat.length else none

/-- `re.sub` worker: scan left to right, replacing every non-overlapping
leftmost match; `fuel` bounds the recursion and is always at least the length
of the remaining input. -/
def subAllFuel (m : List Char → Option Nat) (repl : List Char) :
    Nat → List Char → List Char
  | 0, s => s
  | _ + 1, [] => []
  | f + 1, c :: cs =>
    match m (c :: cs) with
    | some n => repl ++ subAllFuel m repl f ((c :: cs).drop n)
    | none => c :: subAllFuel m repl f cs

/-- `re.sub(pattern, repl, s)` for a matcher `m` that never matches the empty
string: replace every non-overlapping leftmost match. -/
def subAll (m : List Char → Option Nat) (repl : List Char) (s : List Char) :
    List Char :=
  subAllFuel m repl s.length s

/-- `re.search`: the first match of the extraPaths pattern; returns
`group(0)`. -/
def searchExtra : List Char → Option (List Char)
  | [] => none
  | c :: cs =>
    match matchExtra (c :: cs) with
    | some n => some ((c :: cs).take n)
    | none => searchExtra cs

/-- `str.split(sep)` worker (Python semantics, `sep` nonempty): `acc` holds the
current piece reversed, `fuel` is at least the length of the remaining
input. -/
def splitOnFuel (sep : List Char) : Nat → List Char → List Char → List (List Char)
  | 0, acc, s => [acc.reverse ++ s]
  | _ + 1, acc, [] => [acc.reverse]
  | f + 1, acc, c :: cs =>
    if isPrefixL sep (c :: cs) then
      acc.reverse :: splitOnFuel sep f [] ((c :: cs).drop sep.length)
    else
      splitOnFuel sep f (c :: acc) cs

/-- Python `s.split(sep)` for nonempty `sep`. -/
def splitOnL (sep s : List Char) : List (List Char) :=
  splitOnFuel sep s.length [] s

/-- The characters Python `str.strip()` removes (ASCII whitespace). -/
def isPySpace (c : Char) : Bool :=
  c = ' ' || c = '\t' || c = '\n' || c = '\r' || c = '\x0b' || c = '\x0c'

/-- Python `s.strip()` restricted to ASCII whitespace. -/
def pyStrip (s : List Char) : List Char :=
  ((s.dropWhile isPySpace).reverse.dropWhile isPySpace).reverse

/-- Python `s.strip('"')`: remove every leading and trailing `"`. -/
def stripQuotes (s : List Char) : List Char :=
  ((s.dropWhile (fun c => c = '"')).reverse.dropWhile (fun c => c = '"')).reverse

/-- Python `sep.join(xs)`. -/
def joinSep (sep : List Char) : List (List Char) → List Char
  | [] => []
  | [x] => x
  | x :: y :: rest => x ++ sep ++ joinSep sep (y :: rest)

/-- POSIX `os.path.join(a, b)`. -/
def osPathJoin (a b : List Char) : List Char :=
  if b.headD ' ' = '/' then b
  else if a = [] ∨ a.getLastD ' ' = '/' then a ++ b
  else a ++ '/' :: b

/-- Error values: the `FileNotFoundError`s the script raises (carrying their
message) and the `AttributeError` from calling `.group(0)` on a failed
`re.search` (an unhandled exception, not a designed error). -/
inductive PyError where
  | fileNotFound : List Char → PyError
  | attributeError : PyError
deriving DecidableEq

instance : DecidableEq (Except PyError (List Char))
  | .error e1, .error e2 =>
    if h : e1 = e2 then .isTrue (by rw [h])
    else .isFalse (by intro he; cases he; exact h rfl)
  | .error _, .ok _ => .isFalse (by intro he; cases he)
  | .ok _, .error _ => .isFalse (by intro he; cases he)
  | .ok s1, .ok s2 =>
    if h : s1 = s2 then .isTrue (by rw [h])
    else .isFalse (by intro he; cases he; exact h rfl)

/-- Lines 76-79 of the source: take `group(0)` of the regex search, split on
the literal marker text and keep the last piece, split on `]` and keep the
first piece. -/
def extract_paths_src (group0 : List Char) : List Char :=
  (splitOnL [']'] ((splitOnL markerOpen group0).getLastD [])).headD []

/-- Lines 82-84 (first three steps): split the extracted text on every comma,
strip whitespace and surrounding quotes from each piece, and drop empty
pieces. -/
def strippedEntries (s : List Char) : List (List Char) :=
  ((splitOnL [','] s).map (fun p => stripQuotes (pyStrip p))).filter
    (fun p => 0 < p.length)

/-- Line 84: quote each remaining entry with the isaac-sim directory
prepended. -/
def quotedPathNames (isaac_sim_dir s : List Char) : List (List Char) :=
  (strippedEntries s).map (fun p => '"' :: (isaac_sim_dir ++ '/' :: p) ++ ['"'])

/-- Lines 85 and 90: the replacement text for the template's extraPaths
region (`'\t'.expandtabs(4)` turns each tab into four spaces). -/
def extraRepl (isaac_sim_dir s : List Char) : List Char :=
  markerOpen ++ "\n        ".toList
    ++ joinSep ",\n        ".toList (quotedPathNames isaac_sim_dir s)
    ++ "\n    ]".toList

/-- `os.path.join(isaac_sim_dir, ".vscode", "settings.json")`. -/
def isaacsim_vscode_filename (isaac_sim_dir : List Char) : List Char :=
  osPathJoin (osPathJoin isaac_sim_dir ".vscode".toList) "settings.json".toList

/-- `overwrite_python_analysis_extra_paths` (lines 53-96).  The content of the
isaac-sim settings file is passed as an `Option`; `none` models a missing file
and produces the `FileNotFoundError` of line 71. -/
def overwrite_python_analysis_extra_paths (ws_settings isaac_sim_dir : List Char)
    (isaacsim_settings : Option (List Char)) : Except PyError (List Char) :=
  match isaacsim_settings with
  | none =>
    .error (.fileNotFound ("Could not find the isaac-sim settings file: ".toList
      ++ isaacsim_vscode_filename isaac_sim_dir))
  | some vscode_settings =>
    match searchExtra vscode_settings with
    | none => .error .attributeError
    | some group0 =>
      .ok (subAll matchExtra (extraRepl isaac_sim_dir (extract_paths_src group0))
        ws_settings)

/-- Line 38. -/
def default_python_interpreter_key : List Char :=
  "\"python.defaultInterpreterPath\": ".toList

/-- Line 39. -/
def default_python_interpreter_value : List Char :=
  "\"$\x7benv:ORBIT_PATH\x7d/_isaac_sim/python.sh\"".toList

/-- Line 45: the `re.escape`d (hence literal) pattern. -/
def interpPat : List Char :=
  default_python_interpreter_key ++ default_python_interpreter_value

/-- Line 42. -/
def new_interpreter_path (isaac_sim_dir : List Char) : List Char :=
  default_python_interpreter_key
    ++ '"' :: osPathJoin isaac_sim_dir "python.sh".toList ++ ['"']

/-- `overwrite_python_default_interpreter_path` (lines 25-50). -/
def overwrite_python_default_interpreter_path (ws_settings isaac_sim_dir : List Char) :
    List Char :=
  subAll (matchLit interpPat) (new_interpreter_path isaac_sim_dir) ws_settings

/-- `header_msg` (lines 99-105). -/
def header_msg (src : List Char) : List Char :=
  ("// This file is a template and is automatically generated by the "
    ++ "setup_vscode.py script.\n// Do not edit this file directly.\n// \n"
    ++ "// Generated from: ").toList ++ src ++ "\n".toList

/-- The files `main` touches, identified by their role; each field is the
content of the file at its fixed path, `none` meaning the file does not
exist. -/
structure FS where
  settings_template : Option (List Char)
  isaacsim_settings : Option (List Char)
  launch_template : Option (List Char)
  settings_out : Option (List Char)
  launch_out : Option (List Char)
deriving DecidableEq

/-- `os.path.join(WS_DIR, ".vscode", "tools", "settings.template.json")`. -/
def settings_template_path (ws_dir : List Char) : List Char :=
  osPathJoin (osPathJoin (osPathJoin ws_dir ".vscode".toList) "tools".toList)
    "settings.template.json".toList

/-- `os.path.join(WS_DIR, ".vscode", "tools", "launch.template.json")`. -/
def launch_template_path (ws_dir : List Char) : List Char :=
  osPathJoin (osPathJoin (osPathJoin ws_dir ".vscode".toList) "tools".toList)
    "launch.template.json".toList

/-- `main` (lines 108-151), as a function from the initial file-system state
to the final state plus the error that aborted the run, if any. -/
def main (ws_dir orbit_path : List Char) (fs : FS) : FS × Option PyError :=
  match fs.settings_template with
  | none =>
    (fs, some (.fileNotFound ("Could not find the orbit template settings file: ".toList
      ++ settings_template_path ws_dir)))
  | some settings_template =>
    let isaacsim_path := osPathJoin orbit_path "_isaac_sim".toList
    match overwrite_python_analysis_extra_paths settings_template isaacsim_path
        fs.isaacsim_settings with
    | .error e => (fs, some e)
    | .ok s1 =>
      let s2 := overwrite_python_default_interpreter_path s1 isaacsim_path
      let s3 := header_msg (settings_template_path ws_dir) ++ s2
      let fs1 : FS := { fs with settings_out := some s3 }
      match fs1.launch_out with
      | some _ => (fs1, none)
      | none =>
        match fs1.launch_template with
        | none => (fs1, some (.fileNotFound (launch_template_path ws_dir)))
        | some lt =>
          ({ fs1 with launch_out := some (header_msg (launch_template_path ws_dir) ++ lt) },
            none)

/-! ### Basic list facts -/

theorem drop_len_append (x s : List Char) : (x ++ s).drop x.length = s := by
  induction x with
  | nil => rfl
  | cons a xs ih => simp [ih]

theorem take_len_append (x s : List Char) : (x ++ s).take x.length = x := by
  induction x with
  | nil => rfl
  | cons a xs ih => simp [ih]

theorem isPrefixL_self_append (x s : List Char) : isPrefixL x (x ++ s) = true := by
  induction x with
  | nil => rfl
  | cons a xs ih => simpa [isPrefixL] using ih

theorem isMatchPat_append (pat : List (Option Char)) :
    ∀ (lit : List Char), isMatchPat pat lit = true → lit.length = pat.length →
      ∀ s : List Char, isMatchPat pat (lit ++ s) = true := by
  induction pat with
  | nil => intro lit _ _ s; rfl
  | cons p ps ih =>
    intro lit h1 h2 s
    cases lit with
    | nil => simp at h2
    | cons c lit' =>
      cases p with
      | some a =>
        by_cases hac : a = c
        · simp only [isMatchPat, if_pos hac] at h1
          simp only [List.cons_append, isMatchPat, if_pos hac]
          exact ih lit' h1 (by simp only [List.length_cons] at h2; omega) s
        · simp only [isMatchPat, if_neg hac] at h1
          cases h1
      | none =>
        simp only [isMatchPat] at h1
        simp only [List.cons_append, isMatchPat]
        exact ih lit' h1 (by simp only [List.length_cons] at h2; omega) s

theorem findClose_append (a t : List Char) (h : ']' ∉ a) :
    findClose (a ++ ']' :: t) = some a.length := by
  induction a with
  | nil => simp [findClose]
  | cons c a' ih =>
    simp only [List.mem_cons, not_or] at h
    have hc : ¬ (c = ']') := fun e => h.1 e.symm
    simp [findClose, hc, ih h.2]

/-! ### Facts about the matchers -/

theorem markerPat_length : markerPat.length = markerOpen.length := by decide

theorem matchExtra_nil : matchExtra [] = none := by decide

theorem matchExtra_pos (s : List Char) (n : Nat) (h : matchExtra s = some n) :
    1 ≤ n := by
  unfold matchExtra at h
  by_cases hp : isMatchPat markerPat s = true
  · rw [if_pos hp] at h
    cases hfc : findClose (s.drop markerPat.length) with
    | none => rw [hfc] at h; cases h
    | some i => rw [hfc] at h; simp only [Option.some.injEq] at h; omega
  · rw [if_neg hp] at h; cases h

theorem matchExtra_at (a t : List Char) (h : ']' ∉ a) :
    matchExtra (markerOpen ++ (a ++ ']' :: t))
      = some (markerOpen.length + a.length + 1) := by
  have h1 : isMatchPat markerPat (markerOpen ++ (a ++ ']' :: t)) = true :=
    isMatchPat_append markerPat markerOpen (by decide) (by decide) _
  unfold matchExtra
  rw [if_pos h1, markerPat_length, drop_len_append, findClose_append a t h]

theorem matchLit_self (pat s : List Char) :
    matchLit pat (pat ++ s) = some pat.length := by
  unfold matchLit
  rw [if_pos (isPrefixL_self_append pat s)]

theorem matchLit_pos (pat : List Char) (hp : pat ≠ []) (s : List Char) (n : Nat)
    (h : matchLit pat s = some n) : 1 ≤ n := by
  unfold matchLit at h
  by_cases hc : isPrefixL pat s = true
  · rw [if_pos hc] at h
    simp only [Option.some.injEq] at h
    subst h
    exact List.length_pos.mpr hp
  · rw [if_neg hc] at h; cases h

/-! ### Facts about `subAll` (the model of `re.sub`) -/

theorem subAllFuel_eq (m : List Char → Option Nat) (repl : List Char)
    (hm : ∀ s n, m s = some n → 1 ≤ n) :
    ∀ (f g : Nat) (s : List Char), s.length ≤ f → s.length ≤ g →
      subAllFuel m repl f s = subAllFuel m repl g s := by
  intro f
  induction f with
  | zero =>
    intro g s hf _
    have hs : s = [] := List.eq_nil_of_length_eq_zero (Nat.le_zero.mp hf)
    subst hs
    cases g <;> simp [subAllFuel]
  | succ f ih =>
    intro g s hf hg
    cases s with
    | nil => cases g <;> simp [subAllFuel]
    | cons c cs =>
      cases g with
      | zero => simp at hg
      | succ g =>
        simp only [List.length_cons] at hf hg
        simp only [subAllFuel]
        cases hmc : m (c :: cs) with
        | some n =>
          have hn := hm _ _ hmc
          have hd : ((c :: cs).drop n).length = cs.length + 1 - n := by
            simp [List.length_drop]
          dsimp only
          rw [ih g ((c :: cs).drop n) (by omega) (by omega)]
        | none =>
          dsimp only
          rw [ih g cs (by omega) (by omega)]

theorem subAll_cons (m : List Char → Option Nat) (repl : List Char)
    (hm : ∀ s n, m s = some n → 1 ≤ n) (c : Char) (cs : List Char) :
    subAll m repl (c :: cs)
      = match m (c :: cs) with
        | some n => repl ++ subAll m repl ((c :: cs).drop n)
        | none => c :: subAll m repl cs := by
  unfold subAll
  simp only [List.length_cons, subAllFuel]
  cases hmc : m (c :: cs) with
  | some n =>
    have hn := hm _ _ hmc
    have hd : ((c :: cs).drop n).length = cs.length + 1 - n := by
      simp [List.length_drop]
    dsimp only
    rw [subAllFuel_eq m repl hm cs.length ((c :: cs).drop n).length
      ((c :: cs).drop n) (by omega) (by omega)]
  | none => rfl

theorem subAll_skip (m : List Char → Option Nat) (repl : List Char)
    (hm : ∀ s n, m s = some n → 1 ≤ n) (p s : List Char)
    (hp : ∀ i < p.length, m ((p ++ s).drop i) = none) :
    subAll m repl (p ++ s) = p ++ subAll m repl s := by
  induction p with
  | nil => simp
  | cons a p' ih =>
    have h0 : m (a :: (p' ++ s)) = none := by simpa using hp 0 (by simp)
    rw [List.cons_append, subAll_cons m repl hm, h0]
    have ih' := ih (fun i hi => by
      have := hp (i + 1) (by simp; omega)
      simpa using this)
    rw [ih']
    simp

theorem subAll_at (m : List Char → Option Nat) (repl : List Char)
    (hm : ∀ s n, m s = some n → 1 ≤ n) (x s : List Char) (hx : x ≠ [])
    (h : m (x ++ s) = some x.length) :
    subAll m repl (x ++ s) = repl ++ subAll m repl s := by
  cases x with
  | nil => exact absurd rfl hx
  | cons a x' =>
    rw [List.cons_append] at h ⊢
    rw [subAll_cons m repl hm, h]
    have hd : (a :: (x' ++ s)).drop (a :: x').length = s := by
      rw [show a :: (x' ++ s) = (a :: x') ++ s from rfl, drop_len_append]
    dsimp only
    rw [hd]

theorem subAll_none (m : List Char → Option Nat) (repl : List Char)
    (hm : ∀ s n, m s = some n → 1 ≤ n) (s : List Char)
    (h : ∀ i < s.length, m (s.drop i) = none) :
    subAll m repl s = s := by
  induction s with
  | nil => rfl
  | cons c cs ih =>
    have h0 : m (c :: cs) = none := by simpa using h 0 (by simp)
    rw [subAll_cons m repl hm, h0]
    have ih' := ih (fun i hi => by
      have := h (i + 1) (by simp; omega)
      simpa using this)
    rw [ih']

/-! ### Facts about `searchExtra` (the model of `re.search`) -/

theorem searchExtra_skip (p s : List Char)
    (hp : ∀ i < p.length, matchExtra ((p ++ s).drop i) = none) :
    searchExtra (p ++ s) = searchExtra s := by
  induction p with
  | nil => rfl
  | cons a p' ih =>
    have h0 : matchExtra (a :: (p' ++ s)) = none := by simpa using hp 0 (by simp)
    rw [List.cons_append]
    simp only [searchExtra, h0]
    exact ih (fun i hi => by
      have := hp (i + 1) (by simp; omega)
      simpa using this)

theorem searchExtra_at (s : List Char) (n : Nat) (h : matchExtra s = some n) :
    searchExtra s = some (s.take n) := by
  cases s with
  | nil => rw [matchExtra_nil] at h; cases h
  | cons c cs => simp only [searchExtra, h]

/-! ### Facts about `splitOnL` (the model of Python `str.split`) -/

theorem splitOnFuel_noocc (sep : List Char) :
    ∀ (s : List Char) (f : Nat) (acc : List Char), s.length ≤ f →
      (∀ i < s.length, isPrefixL sep (s.drop i) = false) →
      splitOnFuel sep f acc s = [acc.reverse ++ s] := by
  intro s
  induction s with
  | nil =>
    intro f acc _ _
    cases f <;> simp [splitOnFuel]
  | cons c cs ih =>
    intro f acc hf h
    cases f with
    | zero => simp at hf
    | succ f =>
      have h0 : isPrefixL sep (c :: cs) = false := by simpa using h 0 (by simp)
      simp only [splitOnFuel, h0, Bool.false_eq_true, if_false]
      rw [ih f (c :: acc) (by simp at hf; omega) (fun i hi => by
        have := h (i + 1) (by simp; omega)
        simpa using this)]
      simp

theorem splitOnFuel_head (a : Char) (sep' rest acc : List Char) (f : Nat) :
    splitOnFuel (a :: sep') (f + 1) acc ((a :: sep') ++ rest)
      = acc.reverse :: splitOnFuel (a :: sep') f [] rest := by
  have hpre : isPrefixL (a :: sep') ((a :: sep') ++ rest) = true :=
    isPrefixL_self_append _ _
  rw [List.cons_append] at hpre
  rw [List.cons_append]
  simp only [splitOnFuel, hpre, if_true]
  have hd : (a :: (sep' ++ rest)).drop (a :: sep').length = rest := by
    rw [show a :: (sep' ++ rest) = (a :: sep') ++ rest from rfl, drop_len_append]
  rw [hd]

theorem splitOnL_self (sep rest : List Char) (hsep : sep ≠ [])
    (h : ∀ i < rest.length, isPrefixL sep (rest.drop i) = false) :
    splitOnL sep (sep ++ rest) = [[], rest] := by
  cases sep with
  | nil => exact absurd rfl hsep
  | cons a sep' =>
    unfold splitOnL
    rw [show ((a :: sep') ++ rest).length = (sep' ++ rest).length + 1 by simp]
    rw [splitOnFuel_head]
    rw [splitOnFuel_noocc (a :: sep') rest ((sep' ++ rest).length) []
      (by simp [List.length_append]) h]
    simp

theorem splitOnFuel_close (t : List Char) :
    ∀ (a : List Char) (f : Nat) (acc : List Char), ']' ∉ a → a.length < f →
      ∃ tl, splitOnFuel [']'] f acc (a ++ ']' :: t) = (acc.reverse ++ a) :: tl := by
  intro a
  induction a with
  | nil =>
    intro f acc _ hf
    cases f with
    | zero => omega
    | succ f =>
      refine ⟨splitOnFuel [']'] f [] t, ?_⟩
      have hpre : isPrefixL [']'] (']' :: t) = true := by simp [isPrefixL]
      simp only [List.nil_append, splitOnFuel, hpre, if_true]
      simp [List.drop]
  | cons c a' ih =>
    intro f acc h hf
    cases f with
    | zero => simp at hf
    | succ f =>
      simp only [List.mem_cons, not_or] at h
      have hc : isPrefixL [']'] (c :: (a' ++ ']' :: t)) = false := by
        simp [isPrefixL, h.1]
      rw [List.cons_append]
      simp only [splitOnFuel, hc, Bool.false_eq_true, if_false]
      obtain ⟨tl, htl⟩ := ih f (c :: acc) h.2 (by simp at hf; omega)
      refine ⟨tl, ?_⟩
      rw [htl]
      simp

theorem splitOnL_close_head (a t : List Char) (h : ']' ∉ a) :
    (splitOnL [']'] (a ++ ']' :: t)).headD [] = a := by
  obtain ⟨tl, htl⟩ := splitOnFuel_close t a ((a ++ ']' :: t).length) [] h
    (by simp [List.length_append])
  unfold splitOnL
  rw [htl]
  simp

/-! ### The extraction pipeline on a well-formed region -/

theorem markerOpen_ne_nil : markerOpen ≠ [] := by decide

theorem extract_of_region (inner : List Char) (h2 : ']' ∉ inner)
    (h3 : ∀ i < (inner ++ [']']).length,
      isPrefixL markerOpen ((inner ++ [']']).drop i) = false) :
    extract_paths_src (markerOpen ++ (inner ++ [']'])) = inner := by
  unfold extract_paths_src
  rw [splitOnL_self markerOpen (inner ++ [']']) markerOpen_ne_nil h3]
  have hlast : ([([] : List Char), inner ++ [']']]).getLastD [] = inner ++ [']'] := by
    simp
  rw [hlast]
  rw [show inner ++ [']'] = inner ++ ']' :: ([] : List Char) from rfl]
  exact splitOnL_close_head inner [] h2

theorem search_of_region (sPre inner rest : List Char)
    (h1 : ∀ i < sPre.length,
      matchExtra ((sPre ++ (markerOpen ++ (inner ++ ']' :: rest))).drop i) = none)
    (h2 : ']' ∉ inner) :
    searchExtra (sPre ++ (markerOpen ++ (inner ++ ']' :: rest)))
      = some (markerOpen ++ (inner ++ [']'])) := by
  rw [searchExtra_skip sPre _ h1]
  rw [searchExtra_at _ _ (matchExtra_at inner rest h2)]
  congr 1
  rw [show markerOpen ++ (inner ++ ']' :: rest)
      = (markerOpen ++ (inner ++ [']'])) ++ rest by simp]
  rw [show markerOpen.length + inner.length + 1
      = (markerOpen ++ (inner ++ [']'])).length by simp [List.length_append]; omega]
  exact take_len_append _ _

theorem matchExtra_region_len (tInner rest : List Char) (h : ']' ∉ tInner) :
    matchExtra ((markerOpen ++ (tInner ++ [']'])) ++ rest)
      = some ((markerOpen ++ (tInner ++ [']'])).length) := by
  rw [show (markerOpen ++ (tInner ++ [']'])) ++ rest
      = markerOpen ++ (tInner ++ ']' :: rest) by simp]
  rw [matchExtra_at tInner rest h]
  simp only [List.length_append, List.length_cons, List.length_nil, Option.some.injEq]
  omega

theorem region_ne_nil (tInner : List Char) :
    markerOpen ++ (tInner ++ [']']) ≠ [] := by
  intro e
  exact markerOpen_ne_nil (List.append_eq_nil.mp e).1

theorem subAll_region (tPre tInner tPost repl : List Char)
    (ht1 : ∀ i < tPre.length,
      matchExtra ((tPre ++ (markerOpen ++ (tInner ++ ']' :: tPost))).drop i) = none)
    (ht2 : ']' ∉ tInner)
    (ht3 : ∀ i < tPost.length, matchExtra (tPost.drop i) = none) :
    subAll matchExtra repl (tPre ++ (markerOpen ++ (tInner ++ ']' :: tPost)))
      = tPre ++ (repl ++ tPost) := by
  rw [subAll_skip matchExtra repl matchExtra_pos tPre _ ht1]
  congr 1
  rw [show markerOpen ++ (tInner ++ ']' :: tPost)
      = (markerOpen ++ (tInner ++ [']'])) ++ tPost by simp]
  rw [subAll_at matchExtra repl matchExtra_pos _ tPost (region_ne_nil tInner)
    (matchExtra_region_len tInner tPost ht2)]
  rw [subAll_none matchExtra repl matchExtra_pos tPost ht3]

theorem overwrite_extra_region (tPre tInner tPost sPre inner sPost dir : List Char)
    (ht1 : ∀ i < tPre.length,
      matchExtra ((tPre ++ (markerOpen ++ (tInner ++ ']' :: tPost))).drop i) = none)
    (ht2 : ']' ∉ tInner)
    (ht3 : ∀ i < tPost.length, matchExtra (tPost.drop i) = none)
    (hs1 : ∀ i < sPre.length,
      matchExtra ((sPre ++ (markerOpen ++ (inner ++ ']' :: sPost))).drop i) = none)
    (hs2 : ']' ∉ inner)
    (hs3 : ∀ i < (inner ++ [']']).length,
      isPrefixL markerOpen ((inner ++ [']']).drop i) = false) :
    overwrite_python_analysis_extra_paths
        (tPre ++ (markerOpen ++ (tInner ++ ']' :: tPost))) dir
        (some (sPre ++ (markerOpen ++ (inner ++ ']' :: sPost))))
      = .ok (tPre ++ (extraRepl dir inner ++ tPost)) := by
  unfold overwrite_python_analysis_extra_paths
  dsimp only
  rw [search_of_region sPre inner sPost hs1 hs2]
  dsimp only
  rw [extract_of_region inner hs2 hs3]
  rw [subAll_region tPre tInner tPost _ ht1 ht2 ht3]

theorem interpPat_ne_nil : interpPat ≠ [] := by decide

/-! ### Claim theorems -/

/-- C1: for a template whose extraPaths region is the designated bracketed
region and a secondary settings file whose extraPaths list holds exactly the
entries `a` and `b`, rewriting with base directory `/opt/toolkit` produces the
template with the region replaced by the list `"/opt/toolkit/a"`,
`"/opt/toolkit/b"` (newline-and-indentation formatted) and everything outside
the region unchanged. -/
theorem C1_extra_paths_rewrite (tPre tInner tPost sPre inner sPost : List Char)
    (hent : strippedEntries inner = ["a".toList, "b".toList])
    (ht1 : ∀ i < tPre.length,
      matchExtra ((tPre ++ (markerOpen ++ (tInner ++ ']' :: tPost))).drop i) = none)
    (ht2 : ']' ∉ tInner)
    (ht3 : ∀ i < tPost.length, matchExtra (tPost.drop i) = none)
    (hs1 : ∀ i < sPre.length,
      matchExtra ((sPre ++ (markerOpen ++ (inner ++ ']' :: sPost))).drop i) = none)
    (hs2 : ']' ∉ inner)
    (hs3 : ∀ i < (inner ++ [']']).length,
      isPrefixL markerOpen ((inner ++ [']']).drop i) = false) :
    overwrite_python_analysis_extra_paths
        (tPre ++ (markerOpen ++ (tInner ++ ']' :: tPost))) "/opt/toolkit".toList
        (some (sPre ++ (markerOpen ++ (inner ++ ']' :: sPost))))
      = .ok (tPre
          ++ (("\"python.analysis.extraPaths\": [\n        \"/opt/toolkit/a\","
              ++ "\n        \"/opt/toolkit/b\"\n    ]").toList ++ tPost)) := by
  rw [overwrite_extra_region tPre tInner tPost sPre inner sPost _ ht1 ht2 ht3 hs1
    hs2 hs3]
  have hR : extraRepl "/opt/toolkit".toList inner
      = ("\"python.analysis.extraPaths\": [\n        \"/opt/toolkit/a\","
          ++ "\n        \"/opt/toolkit/b\"\n    ]").toList := by
    unfold extraRepl quotedPathNames
    rw [hent]
    decide
  rw [hR]

/-- Witness for C1 at a concrete template and secondary settings file. -/
theorem C1_extra_paths_rewrite_witness :
    strippedEntries "\"a\", \"b\"".toList = ["a".toList, "b".toList]
    ∧ (']' ∉ "\"a\", \"b\"".toList)
    ∧ overwrite_python_analysis_extra_paths
        ("\x7b\n    ".toList ++ (markerOpen ++ ("\"old\"".toList ++ ']' :: "\n\x7d".toList)))
        "/opt/toolkit".toList
        (some ("\x7b\n    ".toList
          ++ (markerOpen ++ ("\"a\", \"b\"".toList ++ ']' :: "\n\x7d".toList))))
      = .ok ("\x7b\n    ".toList
          ++ (("\"python.analysis.extraPaths\": [\n        \"/opt/toolkit/a\","
              ++ "\n        \"/opt/toolkit/b\"\n    ]").toList ++ "\n\x7d".toList)) :=
  ⟨by decide, by decide,
    C1_extra_paths_rewrite "\x7b\n    ".toList "\"old\"".toList "\n\x7d".toList
      "\x7b\n    ".toList "\"a\", \"b\"".toList "\n\x7d".toList (by decide) (by decide)
      (by decide) (by decide) (by decide) (by decide) (by decide)⟩

/-- C2: when the template exists but the isaac-sim settings file does not,
`main` stops with the `FileNotFoundError` naming the expected path
(`<orbit_path>/_isaac_sim/.vscode/settings.json`) and leaves the whole file
system, in particular the destination settings file, untouched. -/
theorem C2_missing_secondary (ws_dir orbit_path : List Char) (fs : FS)
    (t : List Char) (h1 : fs.settings_template = some t)
    (h2 : fs.isaacsim_settings = none) :
    main ws_dir orbit_path fs
      = (fs, some (PyError.fileNotFound
          ("Could not find the isaac-sim settings file: ".toList
            ++ isaacsim_vscode_filename (osPathJoin orbit_path "_isaac_sim".toList))))
    ∧ (main ws_dir orbit_path fs).1.settings_out = fs.settings_out := by
  have hmain : main ws_dir orbit_path fs
      = (fs, some (PyError.fileNotFound
          ("Could not find the isaac-sim settings file: ".toList
            ++ isaacsim_vscode_filename (osPathJoin orbit_path "_isaac_sim".toList)))) := by
    unfold main
    rw [h1]
    dsimp only
    rw [h2]
    unfold overwrite_python_analysis_extra_paths
    dsimp only
  exact ⟨hmain, by rw [hmain]⟩

/-- Witness for C2 at a concrete file-system state. -/
theorem C2_missing_secondary_witness :
    (FS.mk (some "T".toList) none none none none).settings_template = some "T".toList
    ∧ (FS.mk (some "T".toList) none none none none).isaacsim_settings = none
    ∧ main "/ws".toList "/opt/toolkit".toList
        (FS.mk (some "T".toList) none none none none)
      = (FS.mk (some "T".toList) none none none none,
          some (PyError.fileNotFound
            ("Could not find the isaac-sim settings file: ".toList
              ++ isaacsim_vscode_filename
                (osPathJoin "/opt/toolkit".toList "_isaac_sim".toList)))) :=
  ⟨rfl, rfl,
    (C2_missing_secondary "/ws".toList "/opt/toolkit".toList
      (FS.mk (some "T".toList) none none none none) "T".toList rfl rfl).1⟩

/-- C3 counterexample: on a document holding two copies of the hardcoded
key/value literal, `overwrite_python_default_interpreter_path` rewrites the
second occurrence as well, so the result differs from the first-copy-only
rewrite the claim describes. -/
theorem C3_first_only_counterexample :
    overwrite_python_default_interpreter_path (interpPat ++ '\n' :: interpPat)
        "/opt/toolkit".toList
      = new_interpreter_path "/opt/toolkit".toList
          ++ '\n' :: new_interpreter_path "/opt/toolkit".toList
    ∧ new_interpreter_path "/opt/toolkit".toList
          ++ '\n' :: new_interpreter_path "/opt/toolkit".toList
        ≠ new_interpreter_path "/opt/toolkit".toList ++ '\n' :: interpPat :=
  ⟨by decide, by decide⟩

/-- C3 (amended): both substitutions replace every non-overlapping occurrence
of their pattern, not only the first: a document with two interpreter literals
gets both rewritten, and a template with two extraPaths regions gets the
rebuilt list literal substituted for both. -/
theorem C3_amended_replaces_all (pre mid post dir : List Char)
    (h1 : ∀ i < pre.length,
      matchLit interpPat
        ((pre ++ (interpPat ++ (mid ++ (interpPat ++ post)))).drop i) = none)
    (h2 : ∀ i < mid.length,
      matchLit interpPat ((mid ++ (interpPat ++ post)).drop i) = none)
    (h3 : ∀ i < post.length, matchLit interpPat (post.drop i) = none)
    (tPre tIn1 tMid tIn2 tPost R : List Char)
    (g1 : ∀ i < tPre.length,
      matchExtra ((tPre ++ (markerOpen ++ (tIn1 ++ ']'
        :: (tMid ++ (markerOpen ++ (tIn2 ++ ']' :: tPost)))))).drop i) = none)
    (g2 : ']' ∉ tIn1) (g3 : ']' ∉ tIn2)
    (g4 : ∀ i < tMid.length,
      matchExtra ((tMid ++ (markerOpen ++ (tIn2 ++ ']' :: tPost))).drop i) = none)
    (g5 : ∀ i < tPost.length, matchExtra (tPost.drop i) = none) :
    overwrite_python_default_interpreter_path
        (pre ++ (interpPat ++ (mid ++ (interpPat ++ post)))) dir
      = pre ++ (new_interpreter_path dir
          ++ (mid ++ (new_interpreter_path dir ++ post)))
    ∧ subAll matchExtra R
        (tPre ++ (markerOpen ++ (tIn1 ++ ']'
          :: (tMid ++ (markerOpen ++ (tIn2 ++ ']' :: tPost))))))
      = tPre ++ (R ++ (tMid ++ (R ++ tPost))) := by
  constructor
  · unfold overwrite_python_default_interpreter_path
    rw [subAll_skip _ _ (matchLit_pos interpPat interpPat_ne_nil) pre _ h1]
    congr 1
    rw [subAll_at _ _ (matchLit_pos interpPat interpPat_ne_nil) interpPat _
      interpPat_ne_nil (matchLit_self interpPat _)]
    congr 1
    rw [subAll_skip _ _ (matchLit_pos interpPat interpPat_ne_nil) mid _ h2]
    congr 1
    rw [subAll_at _ _ (matchLit_pos interpPat interpPat_ne_nil) interpPat post
      interpPat_ne_nil (matchLit_self interpPat post)]
    rw [subAll_none _ _ (matchLit_pos interpPat interpPat_ne_nil) post h3]
  · rw [subAll_skip matchExtra R matchExtra_pos tPre _ g1]
    congr 1
    rw [show markerOpen ++ (tIn1 ++ ']'
          :: (tMid ++ (markerOpen ++ (tIn2 ++ ']' :: tPost))))
        = (markerOpen ++ (tIn1 ++ [']']))
          ++ (tMid ++ (markerOpen ++ (tIn2 ++ ']' :: tPost))) by simp]
    rw [subAll_at matchExtra R matchExtra_pos _ _ (region_ne_nil tIn1)
      (matchExtra_region_len tIn1 _ g2)]
    congr 1
    exact subAll_region tMid tIn2 tPost R g4 g3 g5

/-- Witness for the amended C3 at concrete two-occurrence documents. -/
theorem C3_amended_replaces_all_witness :
    (']' ∉ "\"u\"".toList)
    ∧ overwrite_python_default_interpreter_path
        ("\x7b".toList ++ (interpPat ++ ("\n".toList ++ (interpPat ++ "\x7d".toList))))
        "/d".toList
      = "\x7b".toList ++ (new_interpreter_path "/d".toList
          ++ ("\n".toList ++ (new_interpreter_path "/d".toList ++ "\x7d".toList)))
    ∧ subAll matchExtra "R".toList
        ("\x7b".toList ++ (markerOpen ++ ("\"u\"".toList ++ ']'
          :: (",\n".toList ++ (markerOpen ++ ("\"v\"".toList ++ ']' :: "\x7d".toList))))))
      = "\x7b".toList ++ ("R".toList
          ++ (",\n".toList ++ ("R".toList ++ "\x7d".toList))) := by
  have h := C3_amended_replaces_all "\x7b".toList "\n".toList "\x7d".toList "/d".toList
    (by decide) (by decide) (by decide) "\x7b".toList "\"u\"".toList ",\n".toList
    "\"v\"".toList "\x7d".toList "R".toList (by decide) (by decide) (by decide)
    (by decide) (by decide)
  exact ⟨by decide, h.1, h.2⟩

/-- C4: on a document holding the hardcoded key/value literal, the overwrite
with base directory `/opt/toolkit` yields a document containing
`/opt/toolkit/python.sh` as the value of the default-interpreter key. -/
theorem C4_interpreter_rewrite (pre post : List Char)
    (h : ∀ i < pre.length,
      matchLit interpPat ((pre ++ (interpPat ++ post)).drop i) = none) :
    ∃ q, overwrite_python_default_interpreter_path (pre ++ (interpPat ++ post))
        "/opt/toolkit".toList
      = pre ++ ("\"python.defaultInterpreterPath\": \"/opt/toolkit/python.sh\"".toList
          ++ q) := by
  refine ⟨subAll (matchLit interpPat) (new_interpreter_path "/opt/toolkit".toList)
    post, ?_⟩
  unfold overwrite_python_default_interpreter_path
  rw [subAll_skip _ _ (matchLit_pos interpPat interpPat_ne_nil) pre _ h]
  congr 1
  rw [subAll_at _ _ (matchLit_pos interpPat interpPat_ne_nil) interpPat post
    interpPat_ne_nil (matchLit_self interpPat post)]
  congr 1

/-- Witness for C4 at a concrete document. -/
theorem C4_interpreter_rewrite_witness :
    (∀ i < ("\x7b\n    ".toList).length,
      matchLit interpPat
        (("\x7b\n    ".toList ++ (interpPat ++ "\n\x7d".toList)).drop i) = none)
    ∧ ∃ q, overwrite_python_default_interpreter_path
        ("\x7b\n    ".toList ++ (interpPat ++ "\n\x7d".toList)) "/opt/toolkit".toList
      = "\x7b\n    ".toList
          ++ ("\"python.defaultInterpreterPath\": \"/opt/toolkit/python.sh\"".toList
            ++ q) :=
  ⟨by decide,
    C4_interpreter_rewrite "\x7b\n    ".toList "\n\x7d".toList (by decide)⟩

/-- C5: a document in which the hardcoded key/value literal does not occur is
returned unchanged by `overwrite_python_default_interpreter_path`, for any
base directory. -/
theorem C5_interpreter_noop (ws dir : List Char)
    (h : ∀ i < ws.length, matchLit interpPat (ws.drop i) = none) :
    overwrite_python_default_interpreter_path ws dir = ws := by
  unfold overwrite_python_default_interpreter_path
  exact subAll_none _ _ (matchLit_pos interpPat interpPat_ne_nil) ws h

/-- Witness for C5 at a concrete document without the literal. -/
theorem C5_interpreter_noop_witness :
    (∀ i < ("\x7b\"python.defaultInterpreterPath\": \"/usr/bin/python3\"\x7d".toList).length,
      matchLit interpPat
        ("\x7b\"python.defaultInterpreterPath\": \"/usr/bin/python3\"\x7d".toList.drop i)
        = none)
    ∧ overwrite_python_default_interpreter_path
        "\x7b\"python.defaultInterpreterPath\": \"/usr/bin/python3\"\x7d".toList
        "/opt/toolkit".toList
      = "\x7b\"python.defaultInterpreterPath\": \"/usr/bin/python3\"\x7d".toList :=
  ⟨by decide,
    C5_interpreter_noop
      "\x7b\"python.defaultInterpreterPath\": \"/usr/bin/python3\"\x7d".toList
      "/opt/toolkit".toList (by decide)⟩

/-- C6: the extracted region runs from the marker exactly to the first `]`
after it; in particular an entry containing a literal `]` truncates the
extracted list at that character (second conjunct: on a secondary file with
entry `"x]y"` only the truncated entry `x` survives). -/
theorem C6_first_close_bracket (sPre inner1 rest : List Char)
    (h1 : ∀ i < sPre.length,
      matchExtra ((sPre ++ (markerOpen ++ (inner1 ++ ']' :: rest))).drop i) = none)
    (h2 : ']' ∉ inner1) :
    searchExtra (sPre ++ (markerOpen ++ (inner1 ++ ']' :: rest)))
        = some (markerOpen ++ (inner1 ++ [']']))
    ∧ overwrite_python_analysis_extra_paths
        "\x7b\"python.analysis.extraPaths\": [\"old\"]\x7d".toList "/opt/toolkit".toList
        (some "\x7b\"python.analysis.extraPaths\": [\"x]y\", \"c\"]\x7d".toList)
      = .ok ("\x7b\"python.analysis.extraPaths\": "
          ++ "[\n        \"/opt/toolkit/x\"\n    ]\x7d").toList :=
  ⟨search_of_region sPre inner1 rest h1 h2, by decide⟩

/-- Witness for C6 at a concrete secondary settings file. -/
theorem C6_first_close_bracket_witness :
    (']' ∉ "\"x\"".toList)
    ∧ searchExtra ("\x7b\n    ".toList
        ++ (markerOpen ++ ("\"x\"".toList ++ ']' :: "\n\x7d".toList)))
      = some (markerOpen ++ ("\"x\"".toList ++ [']'])) :=
  ⟨by decide,
    (C6_first_close_bracket "\x7b\n    ".toList "\"x\"".toList "\n\x7d".toList
      (by decide) (by decide)).1⟩

/-- C7: with the secondary file present, a secondary file without the marker
pattern makes the function fail with the unhandled `AttributeError` from
`.group(0)`, while a template without the marker pattern is passed through the
replacement step unchanged. -/
theorem C7_marker_missing (ws dir sec : List Char)
    (h : ∀ i < ws.length, matchExtra (ws.drop i) = none) :
    (searchExtra sec = none →
      overwrite_python_analysis_extra_paths ws dir (some sec)
        = .error .attributeError)
    ∧ ∀ g, searchExtra sec = some g →
      overwrite_python_analysis_extra_paths ws dir (some sec) = .ok ws := by
  constructor
  · intro hs
    unfold overwrite_python_analysis_extra_paths
    dsimp only
    rw [hs]
  · intro g hs
    unfold overwrite_python_analysis_extra_paths
    dsimp only
    rw [hs]
    dsimp only
    rw [subAll_none matchExtra _ matchExtra_pos ws h]

/-- Witness for C7: a template and a secondary file both without the
marker. -/
theorem C7_marker_missing_witness :
    (∀ i < ("\x7b\x7d".toList).length, matchExtra ("\x7b\x7d".toList.drop i) = none)
    ∧ (searchExtra "\x7b\x7d".toList = none →
      overwrite_python_analysis_extra_paths "\x7b\x7d".toList "/x".toList
        (some "\x7b\x7d".toList) = .error .attributeError)
    ∧ searchExtra "\x7b\x7d".toList = none
    ∧ overwrite_python_analysis_extra_paths "\x7b\x7d".toList "/x".toList
        (some "\x7b\x7d".toList) = .error .attributeError := by
  have h := C7_marker_missing "\x7b\x7d".toList "/x".toList "\x7b\x7d".toList (by decide)
  have hs : searchExtra "\x7b\x7d".toList = none := by decide
  exact ⟨by decide, h.1, hs, h.1 hs⟩

/-- If the launch destination exists, `main` never touches it. -/
theorem main_keeps_launch (ws_dir orbit_path : List Char) (fs : FS) (c : List Char)
    (h : fs.launch_out = some c) :
    (main ws_dir orbit_path fs).1.launch_out = some c := by
  unfold main
  cases hst : fs.settings_template with
  | none => exact h
  | some t =>
    dsimp only
    cases hov : overwrite_python_analysis_extra_paths t
        (osPathJoin orbit_path "_isaac_sim".toList) fs.isaacsim_settings with
    | error e => exact h
    | ok s1 =>
      dsimp only
      rw [h]

/-- C8: when the launch-configuration destination already exists, a run leaves
it untouched, and a second run leaves its content identical to the content
after the first run. -/
theorem C8_launch_idempotent (ws_dir orbit_path : List Char) (fs : FS)
    (c : List Char) (h : fs.launch_out = some c) :
    (main ws_dir orbit_path fs).1.launch_out = some c
    ∧ (main ws_dir orbit_path (main ws_dir orbit_path fs).1).1.launch_out
        = (main ws_dir orbit_path fs).1.launch_out := by
  have h1 := main_keeps_launch ws_dir orbit_path fs c h
  exact ⟨h1, by rw [main_keeps_launch ws_dir orbit_path _ c h1, h1]⟩

/-- Witness for C8 at a concrete file-system state. -/
theorem C8_launch_idempotent_witness :
    (FS.mk none none none none (some "L".toList)).launch_out = some "L".toList
    ∧ (main "/ws".toList "/o".toList
        (FS.mk none none none none (some "L".toList))).1.launch_out
      = some "L".toList :=
  ⟨rfl,
    (C8_launch_idempotent "/ws".toList "/o".toList
      (FS.mk none none none none (some "L".toList)) "L".toList rfl).1⟩

/-- C9: the header block starts with the fixed comment marker and literally
contains the source path in its Generated-from line. -/
theorem C9_header (src : List Char) :
    (∃ rest, header_msg src = "// This file is a template".toList ++ rest)
    ∧ ∃ p q, header_msg src
        = p ++ ("// Generated from: ".toList ++ src ++ "\n".toList) ++ q := by
  constructor
  · refine ⟨(" and is automatically generated by the setup_vscode.py script.\n"
      ++ "// Do not edit this file directly.\n// \n"
      ++ "// Generated from: ").toList ++ src ++ "\n".toList, ?_⟩
    unfold header_msg
    rw [show ("// This file is a template and is automatically generated by the "
        ++ "setup_vscode.py script.\n// Do not edit this file directly.\n// \n"
        ++ "// Generated from: ").toList
      = "// This file is a template".toList
        ++ (" and is automatically generated by the setup_vscode.py script.\n"
          ++ "// Do not edit this file directly.\n// \n"
          ++ "// Generated from: ").toList by decide]
    simp [List.append_assoc]
  · refine ⟨("// This file is a template and is automatically generated by the "
      ++ "setup_vscode.py script.\n// Do not edit this file directly.\n// \n").toList,
      [], ?_⟩
    unfold header_msg
    rw [show ("// This file is a template and is automatically generated by the "
        ++ "setup_vscode.py script.\n// Do not edit this file directly.\n// \n"
        ++ "// Generated from: ").toList
      = ("// This file is a template and is automatically generated by the "
          ++ "setup_vscode.py script.\n// Do not edit this file directly.\n// \n").toList
        ++ "// Generated from: ".toList by decide]
    simp [List.append_assoc]

/-- C10: comma splitting ignores quoting: a single quoted entry `"a,b"` with a
comma inside the quotes yields the two prefixed entries `"/opt/toolkit/a"` and
`"/opt/toolkit/b"` instead of one. -/
theorem C10_comma_inside_quotes :
    strippedEntries "\"a,b\"".toList = ["a".toList, "b".toList]
    ∧ overwrite_python_analysis_extra_paths
        "\x7b\"python.analysis.extraPaths\": [\"old\"]\x7d".toList "/opt/toolkit".toList
        (some "\x7b\"python.analysis.extraPaths\": [\"a,b\"]\x7d".toList)
      = .ok ("\x7b\"python.analysis.extraPaths\": [\n        \"/opt/toolkit/a\","
          ++ "\n        \"/opt/toolkit/b\"\n    ]\x7d").toList :=
  ⟨by decide, by decide⟩

end SetupVscode
